import Mathlib

/-!
Verification of `migrate_db.js`, a one-shot migration script: it reads a
parent JSON database, decrypts each account's `encryptedCode` field into a
plaintext `code` field (empty string on failure or absence), drops
`encryptedCode`, and writes `{ accounts, settings }` to a target file.

The script is embedded shallowly:

* JSON/JS values are the inductive `JValue` (with an `undef` constructor for
  JavaScript `undefined`, which matters because `JSON.stringify` drops
  object properties whose value is `undefined`).
* A JS object is a list of key/value pairs with JS property-lookup
  (`getField` = first match), rest-destructuring (`removeField`), and the
  object-literal update `{...rest, code: v}` (`setField`, which overwrites
  an existing `code` property in place — JS keeps the original insertion
  position — and appends otherwise).
* `CryptoJS.AES.decrypt(..).toString(Utf8)` together with the `try/catch`
  in `decrypt` (lines 8-16) is abstracted as a parameter
  `decrypt : JValue → Option String`: `none` models a thrown exception
  (caught, `null` returned), `some s` models a returned string, possibly
  empty (CryptoJS yields an empty string on key mismatch rather than
  throwing, and the script treats both the same way).
* `fs` and `JSON` are abstracted at the edges: the world is
  `Option String` (the parent file's contents, `none` = file absent),
  `JSON.parse` is a parameter `String → Option JValue` (`none` = parse
  exception) and `JSON.stringify` a parameter `JValue → String` applied
  after `stripUndefTop`, which models stringify dropping top-level
  properties whose value is `undefined` (the only place an `undefined`
  can appear in this program's output object is `settings`).
* Only `console.warn` lines (line 39) and `console.error` lines (lines 20,
  58) are modelled, as the claims only speak about those; the
  informational `console.log` lines and the error detail appended to the
  logged messages are not.
-/

/-- JavaScript values as produced by `JSON.parse`, plus `undefined`. -/
inductive JValue : Type where
  | undef : JValue
  | null : JValue
  | bool : Bool → JValue
  | num : Int → JValue
  | str : String → JValue
  | arr : List JValue → JValue
  | obj : List (String × JValue) → JValue

/-- JS property lookup `o[k]`: first binding wins (JS objects have unique
keys, so this is the binding). `none` means the property is absent. -/
def getField (fields : List (String × JValue)) (k : String) : Option JValue :=
  (fields.find? (fun p => p.1 == k)).map Prod.snd

/-- Rest destructuring `const { k, ...rest } = o`: `rest` is `o` without
property `k`, order preserved. -/
def removeField (fields : List (String × JValue)) (k : String) :
    List (String × JValue) :=
  fields.filter (fun p => !(p.1 == k))

/-- Object literal `{...fields, k: v}`: if `k` is already a property its
value is overwritten in place (JS keeps the original insertion position),
otherwise `(k, v)` is appended. -/
def setField (fields : List (String × JValue)) (k : String) (v : JValue) :
    List (String × JValue) :=
  if fields.any (fun p => p.1 == k) then
    fields.map (fun p => if p.1 == k then (k, v) else p)
  else fields ++ [(k, v)]

/-- JS truthiness of a value (`if (encryptedCode)`, line 34). -/
def truthy : JValue → Bool
  | JValue.undef => false
  | JValue.null => false
  | JValue.bool b => b
  | JValue.num n => if n = 0 then false else true
  | JValue.str s => if s = "" then false else true
  | JValue.arr _ => true
  | JValue.obj _ => true

mutual

/-- JS string coercion as used by the template literal in the warning
message; arrays stringify by joining elements with commas (`null` and
`undefined` elements join as empty strings). -/
def jsToString : JValue → String
  | JValue.undef => "undefined"
  | JValue.null => "null"
  | JValue.bool b => cond b "true" "false"
  | JValue.num n => toString n
  | JValue.str s => s
  | JValue.arr xs => jsJoin xs
  | JValue.obj _ => "[object Object]"

/-- Comma-join of array elements for JS array-to-string coercion. -/
def jsJoin : List JValue → String
  | [] => ""
  | JValue.null :: vs => jsJoinTail vs
  | JValue.undef :: vs => jsJoinTail vs
  | v :: vs => jsToString v ++ jsJoinTail vs

/-- Separator-prefixed join of the remaining array elements. -/
def jsJoinTail : List JValue → String
  | [] => ""
  | vs => "," ++ jsJoin vs

end

/-- True exactly on JavaScript `undefined`. -/
def isUndef : JValue → Bool
  | JValue.undef => true
  | _ => false

/-- Source line 4: the parent database path. -/
def PARENT_DB_PATH : String := "../db.json"

/-- Source line 5: the target database path. -/
def TARGET_DB_PATH : String := "db.json"

/-- The `console.error` line emitted at line 20 when the parent DB file is
missing. -/
def parentNotFoundMsg : String := "Parent DB not found at " ++ PARENT_DB_PATH

/-- The `console.error` line emitted by the top-level catch at line 58
(the appended raw error detail is not modelled). -/
def migrationFailedMsg : String := "Migration failed:"

/-- The `console.warn` line of line 39, naming the account via the JS
coercion of `acc.name` (an absent `name` prints as `undefined`). -/
def warnMsg (acc : List (String × JValue)) : String :=
  "[WARN] Could not decrypt code for " ++
    jsToString ((getField acc "name").getD JValue.undef) ++
    ". Keeping null/empty."

/-- Lines 33-36: the value of `plainCode` after the conditional decrypt.
`decrypt` abstracts `decrypt` of lines 8-16: `none` is the caught-exception
`null`, `some s` a returned string (possibly empty). The destructured
`encryptedCode` is the property value, or `undefined` when absent; `decrypt`
runs only when it is truthy. -/
def decryptedPlain (decrypt : JValue → Option String)
    (acc : List (String × JValue)) : Option String :=
  match getField acc "encryptedCode" with
  | some v => if truthy v then decrypt v else none
  | none => none

/-- Lines 29-47: the body of the `db.accounts.map` callback. Returns the
new account object together with the list of `console.warn` lines it
emits (empty or a single warning). A falsy `plainCode` (`null` from
absence or a caught exception, or the empty string) triggers the warning
and is replaced by `""`; the result object is `{...rest, code: plainCode}`
where `rest` omits `encryptedCode`. -/
def migrateAccount (decrypt : JValue → Option String)
    (acc : List (String × JValue)) : List (String × JValue) × List String :=
  let rest := removeField acc "encryptedCode"
  match decryptedPlain decrypt acc with
  | some s =>
      if s = "" then (setField rest "code" (JValue.str ""), [warnMsg acc])
      else (setField rest "code" (JValue.str s), [])
  | none => (setField rest "code" (JValue.str ""), [warnMsg acc])

/-- Whether the migration obtains a non-empty plaintext for this account:
`encryptedCode` is present and truthy and decrypts (without exception) to a
non-empty string. Exactly the accounts where this is false are warned
about. -/
def decryptsNonEmpty (decrypt : JValue → Option String)
    (acc : List (String × JValue)) : Bool :=
  match decryptedPlain decrypt acc with
  | some s => if s = "" then false else true
  | none => false

/-- The `code` string ending up on the migrated account: the decrypted
plaintext when it is non-empty, the empty string otherwise. -/
def finalCode (decrypt : JValue → Option String)
    (acc : List (String × JValue)) : String :=
  match decryptedPlain decrypt acc with
  | some s => if s = "" then "" else s
  | none => ""

/-- Extracts the object's fields; `none` on any other value. -/
def asObjFields : JValue → Option (List (String × JValue))
  | JValue.obj fs => some fs
  | _ => none

/-- Extracts the array's elements; `none` on any other value. -/
def asArr : JValue → Option (List JValue)
  | JValue.arr xs => some xs
  | _ => none

/-- The account records of the parsed database: `db` must be an object,
`db.accounts` an array, and each element an account object; any other
shape makes the script throw (`db.accounts.length`/`db.accounts.map` on
line 27/29, or the destructuring on line 31), which the top-level catch
turns into a logged failure, modelled as `none`. -/
def accountsOf (db : JValue) : Option (List (List (String × JValue))) := do
  let fields ← asObjFields db
  let accountsV ← getField fields "accounts"
  let xs ← asArr accountsV
  xs.mapM asObjFields

/-- Lines 27-52: the in-memory transformation producing `newDb` and the
accumulated `console.warn` lines; `none` models an exception reaching the
top-level catch (malformed database shape). `newDb` is the object literal
of lines 49-52: the mapped accounts under `accounts` and `db.settings`
(the property value, or `undefined` when absent) under `settings`. -/
def migrateDb (decrypt : JValue → Option String) (db : JValue) :
    Option (JValue × List String) := do
  let fields ← asObjFields db
  let accs ← accountsOf db
  let results := accs.map (migrateAccount decrypt)
  some (JValue.obj
      [("accounts", JValue.arr (results.map (fun r => JValue.obj r.1))),
       ("settings", (getField fields "settings").getD JValue.undef)],
    (results.map Prod.snd).flatten)

/-- `JSON.stringify` (line 54) drops top-level object properties whose
value is `undefined`; in this program the only property that can be
`undefined` in `newDb` is `settings` (everything else originates from
`JSON.parse` output or is a constructed string/array/object), so only the
top level needs stripping. -/
def stripUndefTop : JValue → JValue
  | JValue.obj fs => JValue.obj (fs.filter (fun p => !isUndef p.2))
  | v => v

/-- The JSON document written to the target file, as a value (the final
textual rendering by `JSON.stringify` is injective on this fragment and
is abstracted away); `none` when nothing is written. -/
def writtenDoc (decrypt : JValue → Option String) (db : JValue) :
    Option JValue :=
  (migrateDb decrypt db).map (fun r => stripUndefTop r.1)

/-- The observable outcome of one run of the script. -/
structure ProgResult where
  written : Option String
  explicitExit : Option Nat
  errors : List String
  warns : List String

/-- Lines 18-59: the whole script. `parentDb` is the contents of
`../db.json` (`none` = file absent, so `fs.existsSync` is false);
`parseJson` abstracts `JSON.parse` (`none` = parse exception);
`stringify` abstracts `JSON.stringify` on the stripped document.
`explicitExit = some 1` is the `process.exit(1)` of line 21; on every
other path the script ends normally (the top-level catch only logs), so
`explicitExit = none` and the runtime's default exit status applies. -/
def runMigration (decrypt : JValue → Option String)
    (parseJson : String → Option JValue) (stringify : JValue → String)
    (parentDb : Option String) : ProgResult :=
  match parentDb with
  | none =>
      { written := none, explicitExit := some 1,
        errors := [parentNotFoundMsg], warns := [] }
  | some raw =>
      match parseJson raw with
      | none =>
          { written := none, explicitExit := none,
            errors := [migrationFailedMsg], warns := [] }
      | some db =>
          match migrateDb decrypt db with
          | none =>
              { written := none, explicitExit := none,
                errors := [migrationFailedMsg], warns := [] }
          | some (newDb, warns) =>
              { written := some (stringify (stripUndefTop newDb)),
                explicitExit := none, errors := [], warns := warns }

/-! Concrete instances used to witness the theorems below. `decNone` is a
decryptor for which every ciphertext fails (models a wrong key: every
`CryptoJS.AES.decrypt` call throws); `decEx` decrypts the one ciphertext
`"CT"` to `"ABC123"` (the spec's example scenario) and fails elsewhere. -/

/-- A decryptor that fails on every input. -/
def decNone : JValue → Option String := fun _ => none

/-- A decryptor knowing exactly the ciphertext `"CT"` (plaintext
`"ABC123"`). -/
def decEx : JValue → Option String := fun v =>
  match v with
  | JValue.str "CT" => some "ABC123"
  | _ => none

/-- Example account with a decryptable code. -/
def accEx1 : List (String × JValue) :=
  [("name", JValue.str "acct1"), ("encryptedCode", JValue.str "CT")]

/-- Example account with no `encryptedCode`. -/
def accEx2 : List (String × JValue) :=
  [("name", JValue.str "acct2")]

/-- Account that already carries a `code` property: the migration
overwrites it. -/
def accCex : List (String × JValue) :=
  [("name", JValue.str "a"), ("code", JValue.str "old")]

/-- The top-level fields of the spec's example database. -/
def dbExFields : List (String × JValue) :=
  [("accounts", JValue.arr [JValue.obj accEx1, JValue.obj accEx2]),
   ("settings", JValue.obj [("theme", JValue.str "dark")])]

/-- The spec's example database: two accounts and a settings object. -/
def dbEx : JValue := JValue.obj dbExFields

/-- The account list of `dbEx`. -/
def accsEx : List (List (String × JValue)) := [accEx1, accEx2]

/-- The `newDb` object produced from `dbEx` under `decEx`. -/
def outEx : JValue :=
  JValue.obj
    [("accounts", JValue.arr
        [JValue.obj
           [("name", JValue.str "acct1"), ("code", JValue.str "ABC123")],
         JValue.obj
           [("name", JValue.str "acct2"), ("code", JValue.str "")]]),
     ("settings", JValue.obj [("theme", JValue.str "dark")])]

/-- The warning lines produced from `dbEx` under `decEx`: the single
warning naming `acct2` (the rendered text is established by
`warnMsg_acct2` below). -/
def wsEx : List String := [warnMsg accEx2]

/-- A database whose top level has no `settings` property. -/
def dbNoSettings : JValue :=
  JValue.obj [("accounts", JValue.arr [])]

/-- An account whose ciphertext fails to decrypt under `decNone`. -/
def accFail : List (String × JValue) :=
  [("name", JValue.str "b"), ("encryptedCode", JValue.str "X")]

/-- A database with a single account whose ciphertext fails to decrypt. -/
def dbFail : JValue :=
  JValue.obj
    [("accounts", JValue.arr [JValue.obj accFail]),
     ("settings", JValue.obj [])]

/-- The account list of `dbFail`. -/
def accsFail : List (List (String × JValue)) := [accFail]

/-- A JSON parser that fails on every input (models `JSON.parse` throwing
on malformed text). -/
def parseNone : String → Option JValue := fun _ => none

/-- A trivial stringifier, used only to instantiate the abstracted
`JSON.stringify` in witnesses. -/
def stringifyEmpty : JValue → String := fun _ => ""

/-! Helper lemmas about the object-field operations. -/

/-- Lookup on a cons whose head key matches. -/
theorem getField_cons_eq (p : String × JValue) (t : List (String × JValue))
    (k : String) (h : (p.1 == k) = true) : getField (p :: t) k = some p.2 := by
  simp [getField, List.find?_cons, h]

/-- Lookup on a cons whose head key does not match. -/
theorem getField_cons_ne (p : String × JValue) (t : List (String × JValue))
    (k : String) (h : (p.1 == k) = false) : getField (p :: t) k = getField t k := by
  simp only [getField, List.find?_cons, h]

/-- Removing a key removes it from lookup. -/
theorem getField_removeField_self (fs : List (String × JValue)) (k : String) :
    getField (removeField fs k) k = none := by
  induction fs with
  | nil => rfl
  | cons p t ih =>
      cases h : p.1 == k with
      | true => simpa [removeField, List.filter_cons, h] using ih
      | false =>
          simp only [removeField, List.filter_cons, h, Bool.not_false,
            if_true, cond_true]
          rw [getField_cons_ne p _ k h]
          exact ih

/-- Removing one key leaves every other key's lookup unchanged. -/
theorem getField_removeField_ne (fs : List (String × JValue)) (k q : String)
    (h : q ≠ k) : getField (removeField fs k) q = getField fs q := by
  induction fs with
  | nil => rfl
  | cons p t ih =>
      cases hk : p.1 == k with
      | true =>
          have hq : (p.1 == q) = false := by
            have : p.1 = k := by simpa using hk
            simp [this, h, Ne.symm h]
          simp only [removeField, List.filter_cons, hk, Bool.not_true,
            if_false]
          rw [getField_cons_ne p t q hq]
          exact ih
      | false =>
          simp only [removeField, List.filter_cons, hk, Bool.not_false,
            if_true]
          cases hq : p.1 == q with
          | true =>
              rw [getField_cons_eq p _ q hq, getField_cons_eq p t q hq]
          | false =>
              rw [getField_cons_ne p _ q hq, getField_cons_ne p t q hq]
              exact ih

/-- Lookup after appending a fresh binding for an absent key. -/
theorem getField_append_single (fs : List (String × JValue)) (k : String)
    (v : JValue) (h : fs.any (fun p => p.1 == k) = false) :
    getField (fs ++ [(k, v)]) k = some v := by
  induction fs with
  | nil => simp [getField, List.find?_cons]
  | cons p t ih =>
      rw [List.any_cons] at h
      rcases Bool.or_eq_false_iff.mp h with ⟨h1, h2⟩
      rw [List.cons_append, getField_cons_ne p _ k h1]
      exact ih h2

/-- Lookup after overwriting an existing key in place. -/
theorem getField_map_overwrite (fs : List (String × JValue)) (k : String)
    (v : JValue) (h : fs.any (fun p => p.1 == k) = true) :
    getField (fs.map (fun p => if p.1 == k then (k, v) else p)) k = some v := by
  induction fs with
  | nil => simp at h
  | cons p t ih =>
      rw [List.map_cons]
      cases hk : p.1 == k with
      | true =>
          have hred : (if true = true then (k, v) else p) = (k, v) := rfl
          rw [hred]
          exact getField_cons_eq (k, v) _ k (by simp)
      | false =>
          have hred : (if false = true then (k, v) else p) = p := rfl
          rw [hred]
          rw [getField_cons_ne p _ k hk]
          rw [List.any_cons, hk, Bool.false_or] at h
          exact ih h

/-- `setField` makes the key's lookup yield the new value. -/
theorem getField_setField_self (fs : List (String × JValue)) (k : String)
    (v : JValue) : getField (setField fs k v) k = some v := by
  unfold setField
  cases h : fs.any (fun p => p.1 == k) with
  | true => simpa using getField_map_overwrite fs k v h
  | false => simpa using getField_append_single fs k v h

/-- Appending a binding for key `k` leaves lookup of `q ≠ k` unchanged. -/
theorem getField_append_single_ne (fs : List (String × JValue))
    (k q : String) (v : JValue) (h : (k == q) = false) :
    getField (fs ++ [(k, v)]) q = getField fs q := by
  induction fs with
  | nil => simp [getField, List.find?_cons, h]
  | cons p t ih =>
      rw [List.cons_append]
      cases hq : p.1 == q with
      | true => rw [getField_cons_eq p _ q hq, getField_cons_eq p t q hq]
      | false =>
          rw [getField_cons_ne p _ q hq, getField_cons_ne p t q hq]
          exact ih

/-- Overwriting key `k` in place leaves lookup of `q ≠ k` unchanged. -/
theorem getField_map_overwrite_ne (fs : List (String × JValue))
    (k q : String) (v : JValue) (hkq : (k == q) = false) :
    getField (fs.map (fun p => if p.1 == k then (k, v) else p)) q =
      getField fs q := by
  induction fs with
  | nil => rfl
  | cons p t ih =>
      rw [List.map_cons]
      cases hk : p.1 == k with
      | true =>
          have hred : (if true = true then (k, v) else p) = (k, v) := rfl
          rw [hred]
          have hpq : (p.1 == q) = false := by
            have hpk : p.1 = k := by simpa using hk
            simpa [hpk] using hkq
          rw [getField_cons_ne (k, v) _ q hkq, getField_cons_ne p t q hpq]
          exact ih
      | false =>
          have hred : (if false = true then (k, v) else p) = p := rfl
          rw [hred]
          cases hq : p.1 == q with
          | true => rw [getField_cons_eq p _ q hq, getField_cons_eq p t q hq]
          | false =>
              rw [getField_cons_ne p _ q hq, getField_cons_ne p t q hq]
              exact ih

/-- `setField` on one key leaves every other key's lookup unchanged. -/
theorem getField_setField_ne (fs : List (String × JValue)) (k q : String)
    (v : JValue) (h : q ≠ k) :
    getField (setField fs k v) q = getField fs q := by
  have hkq : (k == q) = false := by
    simp [Ne.symm h]
  unfold setField
  cases ha : fs.any (fun p => p.1 == k) with
  | true => simpa using getField_map_overwrite_ne fs k q v hkq
  | false => simpa using getField_append_single_ne fs k q v hkq

/-! Helper lemmas about the per-account transform and the whole pipeline. -/

/-- The migrated account object is always `rest` with `code` set to
`finalCode`. -/
theorem migrateAccount_fst (decrypt : JValue → Option String)
    (acc : List (String × JValue)) :
    (migrateAccount decrypt acc).1 =
      setField (removeField acc "encryptedCode") "code"
        (JValue.str (finalCode decrypt acc)) := by
  unfold migrateAccount finalCode
  cases decryptedPlain decrypt acc with
  | none => rfl
  | some s =>
      by_cases h : s = "" <;> simp [h]

/-- The per-account warnings: exactly one warning when no non-empty
plaintext is obtained, none otherwise. -/
theorem migrateAccount_snd (decrypt : JValue → Option String)
    (acc : List (String × JValue)) :
    (migrateAccount decrypt acc).2 =
      if decryptsNonEmpty decrypt acc then [] else [warnMsg acc] := by
  unfold migrateAccount decryptsNonEmpty
  cases decryptedPlain decrypt acc with
  | none => rfl
  | some s =>
      by_cases h : s = "" <;> simp [h]

/-- Lookup of `code` on a migrated account. -/
theorem migrateAccount_code (decrypt : JValue → Option String)
    (acc : List (String × JValue)) :
    getField (migrateAccount decrypt acc).1 "code" =
      some (JValue.str (finalCode decrypt acc)) := by
  rw [migrateAccount_fst]
  exact getField_setField_self _ _ _

/-- Lookup of any key other than `encryptedCode` and `code` on a migrated
account agrees with the input account. -/
theorem migrateAccount_other (decrypt : JValue → Option String)
    (acc : List (String × JValue)) (k : String)
    (hk1 : k ≠ "encryptedCode") (hk2 : k ≠ "code") :
    getField (migrateAccount decrypt acc).1 k = getField acc k := by
  rw [migrateAccount_fst, getField_setField_ne _ _ _ _ hk2,
    getField_removeField_ne _ _ _ hk1]

/-- `encryptedCode` is absent from a migrated account. -/
theorem migrateAccount_encryptedCode (decrypt : JValue → Option String)
    (acc : List (String × JValue)) :
    getField (migrateAccount decrypt acc).1 "encryptedCode" = none := by
  rw [migrateAccount_fst, getField_setField_ne _ _ _ _ (by decide),
    getField_removeField_self]

/-- A database whose accounts parse is itself an object. -/
theorem asObjFields_of_accountsOf (db : JValue)
    (accs : List (List (String × JValue)))
    (ha : accountsOf db = some accs) :
    ∃ fields, asObjFields db = some fields := by
  cases h : asObjFields db with
  | none =>
      rw [accountsOf, h] at ha
      simp at ha
  | some fields => exact ⟨fields, rfl⟩

/-- Evaluation of `migrateDb` on a well-formed database. -/
theorem migrateDb_eq (decrypt : JValue → Option String) (db : JValue)
    (fields : List (String × JValue))
    (accs : List (List (String × JValue)))
    (hf : asObjFields db = some fields)
    (ha : accountsOf db = some accs) :
    migrateDb decrypt db = some (JValue.obj
      [("accounts", JValue.arr
          ((accs.map (migrateAccount decrypt)).map (fun r => JValue.obj r.1))),
       ("settings", (getField fields "settings").getD JValue.undef)],
      ((accs.map (migrateAccount decrypt)).map Prod.snd).flatten) := by
  rw [migrateDb, hf, ha]
  rfl

/-- The concatenated warnings of a run are one warning per account that
yields no non-empty plaintext, in account order. -/
theorem warns_eq_filter (decrypt : JValue → Option String)
    (accs : List (List (String × JValue))) :
    ((accs.map (migrateAccount decrypt)).map Prod.snd).flatten =
      (accs.filter (fun a => !decryptsNonEmpty decrypt a)).map warnMsg := by
  induction accs with
  | nil => rfl
  | cons a t ih =>
      rw [List.map_cons, List.map_cons, List.flatten_cons, ih,
        List.filter_cons, migrateAccount_snd]
      cases h : decryptsNonEmpty decrypt a with
      | true => simp [h]
      | false => simp [h]

/-- The warning line literally contains the account's name when `name` is
a string. -/
theorem warnMsg_name (acc : List (String × JValue)) (n : String)
    (h : getField acc "name" = some (JValue.str n)) :
    warnMsg acc =
      "[WARN] Could not decrypt code for " ++ n ++
        ". Keeping null/empty." := by
  simp [warnMsg, h, jsToString]

/-- On an account whose truthy ciphertext fails to decrypt (exception or
empty plaintext), the final code is empty and no non-empty plaintext is
obtained. -/
theorem fail_account_code (decrypt : JValue → Option String)
    (acc : List (String × JValue)) (c : String)
    (hv : getField acc "encryptedCode" = some (JValue.str c)) (hc : c ≠ "")
    (hfail : decrypt (JValue.str c) = none ∨
      decrypt (JValue.str c) = some "") :
    finalCode decrypt acc = "" ∧ decryptsNonEmpty decrypt acc = false := by
  have hp : decryptedPlain decrypt acc = decrypt (JValue.str c) := by
    rw [decryptedPlain, hv]
    simp [truthy, hc]
  rcases hfail with h | h <;>
    exact ⟨by simp [finalCode, hp, h], by simp [decryptsNonEmpty, hp, h]⟩

/-- C1: for every account whose `encryptedCode` is present (a non-empty
ciphertext string — an empty ciphertext cannot decrypt to a non-empty
plaintext, and the script only calls `decrypt` on truthy values) and
decrypts successfully under the configured key to a non-empty string `s`,
the migrated account's `code` field equals `s`. -/
theorem claim1_decrypt_success_code (decrypt : JValue → Option String)
    (acc : List (String × JValue)) (c s : String)
    (hv : getField acc "encryptedCode" = some (JValue.str c))
    (hc : c ≠ "")
    (hd : decrypt (JValue.str c) = some s)
    (hs : s ≠ "") :
    getField (migrateAccount decrypt acc).1 "code" =
      some (JValue.str s) := by
  have hp : decryptedPlain decrypt acc = some s := by
    rw [decryptedPlain, hv]
    simp [truthy, hc, hd]
  have hfc : finalCode decrypt acc = s := by
    simp [finalCode, hp, hs]
  rw [migrateAccount_code, hfc]

/-- Witness for C1 at the spec's example account: `"CT"` decrypts to
`"ABC123"` and the migrated `code` is `"ABC123"`. -/
theorem claim1_witness :
    getField (migrateAccount decEx accEx1).1 "code" =
      some (JValue.str "ABC123") :=
  claim1_decrypt_success_code decEx accEx1 "CT" "ABC123" (by rfl)
    (by decide) (by rfl) (by decide)

/-- C3 counterexample: the claim quantifies over every field whose key is
not `encryptedCode`, but a pre-existing `code` field is not preserved: on
`accCex` (which carries `code: "old"` and no `encryptedCode`) the
migration overwrites `code` with `""`. -/
theorem claim3_counterexample :
    "code" ≠ "encryptedCode" ∧
    getField accCex "code" = some (JValue.str "old") ∧
    getField (migrateAccount decNone accCex).1 "code" =
      some (JValue.str "") :=
  ⟨by decide, by rfl, by rfl⟩

/-- C3 amended: every field whose key is neither `encryptedCode` nor
`code` is preserved with identical value (hence type); `encryptedCode` is
removed; `code` is present and is a string. -/
theorem claim3_passthrough_amended (decrypt : JValue → Option String)
    (acc : List (String × JValue)) :
    (∀ k, k ≠ "encryptedCode" → k ≠ "code" →
        getField (migrateAccount decrypt acc).1 k = getField acc k) ∧
    getField (migrateAccount decrypt acc).1 "encryptedCode" = none ∧
    ∃ s, getField (migrateAccount decrypt acc).1 "code" =
        some (JValue.str s) :=
  ⟨fun k hk1 hk2 => migrateAccount_other decrypt acc k hk1 hk2,
    migrateAccount_encryptedCode decrypt acc,
    ⟨finalCode decrypt acc, migrateAccount_code decrypt acc⟩⟩

/-- Witness for the amended C3: the `name` field of `accCex` is preserved
by the migration. -/
theorem claim3_amended_witness :
    getField (migrateAccount decNone accCex).1 "name" =
      getField accCex "name" :=
  (claim3_passthrough_amended decNone accCex).1 "name" (by decide)
    (by decide)

/-- C5: for every account with no `encryptedCode` — the property absent,
`null`, or the empty string — the migrated account's `code` is the empty
string. -/
theorem claim5_no_encrypted_code (decrypt : JValue → Option String)
    (acc : List (String × JValue))
    (h : getField acc "encryptedCode" = none ∨
         getField acc "encryptedCode" = some JValue.null ∨
         getField acc "encryptedCode" = some (JValue.str "")) :
    getField (migrateAccount decrypt acc).1 "code" =
      some (JValue.str "") := by
  have hp : decryptedPlain decrypt acc = none := by
    rcases h with h | h | h <;> rw [decryptedPlain, h] <;> simp [truthy]
  have hfc : finalCode decrypt acc = "" := by
    simp [finalCode, hp]
  rw [migrateAccount_code, hfc]

/-- Witness for C5 at the example account `acct2`, which has no
`encryptedCode` property at all. -/
theorem claim5_witness :
    getField (migrateAccount decEx accEx2).1 "code" =
      some (JValue.str "") :=
  claim5_no_encrypted_code decEx accEx2 (Or.inl (by rfl))

/-- C7: when the source file does not exist, the script writes nothing,
logs the missing-file error, and explicitly exits with status 1 (lines
19-22). -/
theorem claim7_missing_source (decrypt : JValue → Option String)
    (parseJson : String → Option JValue) (stringify : JValue → String) :
    (runMigration decrypt parseJson stringify none).written = none ∧
    (runMigration decrypt parseJson stringify none).explicitExit = some 1 ∧
    (runMigration decrypt parseJson stringify none).errors =
      [parentNotFoundMsg] :=
  ⟨rfl, rfl, rfl⟩

/-- C8: when the source text fails to parse as JSON, the script writes
nothing, logs the failure through the top-level catch, and sets no
explicit exit code (lines 24-25 and 57-59). -/
theorem claim8_invalid_json (decrypt : JValue → Option String)
    (parseJson : String → Option JValue) (stringify : JValue → String)
    (raw : String) (hp : parseJson raw = none) :
    (runMigration decrypt parseJson stringify (some raw)).written = none ∧
    (runMigration decrypt parseJson stringify (some raw)).errors =
      [migrationFailedMsg] ∧
    (runMigration decrypt parseJson stringify (some raw)).explicitExit =
      none := by
  simp [runMigration, hp]

/-- Witness for C8: an always-failing parser on an arbitrary source
text. -/
theorem claim8_witness :
    (runMigration decNone parseNone stringifyEmpty (some "not json")).written
      = none ∧
    (runMigration decNone parseNone stringifyEmpty (some "not json")).errors
      = [migrationFailedMsg] ∧
    (runMigration decNone parseNone stringifyEmpty
        (some "not json")).explicitExit = none :=
  claim8_invalid_json decNone parseNone stringifyEmpty "not json" (by rfl)

/-- C2: on every input database the output `accounts` array has exactly as
many accounts as the input's, and the transformed account at each index is
the migration of the input account at that same index (order preserved). -/
theorem claim2_accounts_count_order (decrypt : JValue → Option String)
    (db : JValue) (accs : List (List (String × JValue)))
    (out : JValue) (ws : List String)
    (ha : accountsOf db = some accs)
    (hm : migrateDb decrypt db = some (out, ws)) :
    ∃ outFields outAccs, asObjFields out = some outFields ∧
      getField outFields "accounts" = some (JValue.arr outAccs) ∧
      outAccs.length = accs.length ∧
      ∀ i : Nat, outAccs[i]? =
        (accs[i]?).map (fun a => JValue.obj (migrateAccount decrypt a).1) := by
  obtain ⟨fields, hf⟩ := asObjFields_of_accountsOf db accs ha
  rw [migrateDb_eq decrypt db fields accs hf ha] at hm
  have hpair := Option.some.inj hm
  rw [Prod.mk.injEq] at hpair
  obtain ⟨h1, h2⟩ := hpair
  subst h1
  subst h2
  refine ⟨_, _, rfl, rfl, ?_, ?_⟩
  · simp
  · intro i
    simp [List.getElem?_map, Option.map_map]
    rfl

/-- Witness for C2 on the spec's example database: two accounts in, two
accounts out, respecting the index correspondence. -/
theorem claim2_witness :
    ∃ outFields outAccs, asObjFields outEx = some outFields ∧
      getField outFields "accounts" = some (JValue.arr outAccs) ∧
      outAccs.length = accsEx.length ∧
      ∀ i : Nat, outAccs[i]? =
        (accsEx[i]?).map (fun a => JValue.obj (migrateAccount decEx a).1) :=
  claim2_accounts_count_order decEx dbEx accsEx outEx wsEx (by rfl) (by rfl)

/-- C4: for every account whose `encryptedCode` is present (non-empty
ciphertext) but fails to decrypt — the decryption throws (`none`) or
yields the empty result — the run still succeeds, the output at that index
has `code` equal to the empty string, a warning naming that account is
logged, and all accounts are still processed (the output account count
equals the input count). -/
theorem claim4_decrypt_failure (decrypt : JValue → Option String)
    (db : JValue) (accs : List (List (String × JValue)))
    (i : Nat) (a : List (String × JValue)) (c : String)
    (ha : accountsOf db = some accs)
    (hai : accs[i]? = some a)
    (hv : getField a "encryptedCode" = some (JValue.str c))
    (hc : c ≠ "")
    (hfail : decrypt (JValue.str c) = none ∨
      decrypt (JValue.str c) = some "") :
    ∃ out ws outFields outAccs,
      migrateDb decrypt db = some (out, ws) ∧
      asObjFields out = some outFields ∧
      getField outFields "accounts" = some (JValue.arr outAccs) ∧
      outAccs.length = accs.length ∧
      (∃ outAcc, outAccs[i]? = some (JValue.obj outAcc) ∧
        getField outAcc "code" = some (JValue.str "")) ∧
      warnMsg a ∈ ws ∧
      (∀ n, getField a "name" = some (JValue.str n) →
        ("[WARN] Could not decrypt code for " ++ n ++
          ". Keeping null/empty.") ∈ ws) := by
  obtain ⟨fields, hf⟩ := asObjFields_of_accountsOf db accs ha
  obtain ⟨hfc, hne⟩ := fail_account_code decrypt a c hv hc hfail
  have hmem : a ∈ accs := by
    have hlt : i < accs.length := by
      by_contra hge
      rw [List.getElem?_eq_none (Nat.le_of_not_lt hge)] at hai
      exact Option.noConfusion hai
    have := List.getElem?_eq_getElem hlt
    rw [this] at hai
    have := Option.some.inj hai
    rw [← this]
    exact accs.getElem_mem hlt
  have hwmem : warnMsg a ∈
      ((accs.map (migrateAccount decrypt)).map Prod.snd).flatten := by
    rw [warns_eq_filter]
    exact List.mem_map_of_mem warnMsg
      (List.mem_filter.mpr ⟨hmem, by simp [hne]⟩)
  refine ⟨_, _, _, _, migrateDb_eq decrypt db fields accs hf ha, rfl, rfl,
    by simp, ?_, hwmem, ?_⟩
  · refine ⟨(migrateAccount decrypt a).1, ?_, ?_⟩
    · simp [List.getElem?_map, hai]
    · rw [migrateAccount_code, hfc]
  · intro n hn
    rw [← warnMsg_name a n hn]
    exact hwmem

/-- Witness for C4: the single account of `dbFail` has ciphertext `"X"`,
every decryption fails under `decNone`, and the run warns about account
`b` while still emitting one output account. -/
theorem claim4_witness :
    ∃ out ws outFields outAccs,
      migrateDb decNone dbFail = some (out, ws) ∧
      asObjFields out = some outFields ∧
      getField outFields "accounts" = some (JValue.arr outAccs) ∧
      outAccs.length = accsFail.length ∧
      (∃ outAcc, outAccs[0]? = some (JValue.obj outAcc) ∧
        getField outAcc "code" = some (JValue.str "")) ∧
      warnMsg accFail ∈ ws ∧
      (∀ n, getField accFail "name" = some (JValue.str n) →
        ("[WARN] Could not decrypt code for " ++ n ++
          ". Keeping null/empty.") ∈ ws) :=
  claim4_decrypt_failure decNone dbFail accsFail 0 accFail "X" (by rfl)
    (by rfl) (by rfl) (by decide) (Or.inl (by rfl))

/-- C6: the `settings` object of the input database reappears in the
written output document equal to itself — the transformation copies
`db.settings` verbatim and never inspects it. -/
theorem claim6_settings_passthrough (decrypt : JValue → Option String)
    (db : JValue) (fields : List (String × JValue))
    (accs : List (List (String × JValue)))
    (sObj : List (String × JValue))
    (hf : asObjFields db = some fields)
    (ha : accountsOf db = some accs)
    (hs : getField fields "settings" = some (JValue.obj sObj)) :
    ∃ doc outFields, writtenDoc decrypt db = some doc ∧
      asObjFields doc = some outFields ∧
      getField outFields "settings" = some (JValue.obj sObj) := by
  rw [writtenDoc, migrateDb_eq decrypt db fields accs hf ha, hs]
  exact ⟨_, _, rfl, rfl, rfl⟩

/-- Witness for C6 on the spec's example database: the `settings` object
`{theme: "dark"}` survives unchanged in the written document. -/
theorem claim6_witness :
    ∃ doc outFields, writtenDoc decEx dbEx = some doc ∧
      asObjFields doc = some outFields ∧
      getField outFields "settings" =
        some (JValue.obj [("theme", JValue.str "dark")]) :=
  claim6_settings_passthrough decEx dbEx dbExFields accsEx
    [("theme", JValue.str "dark")] (by rfl) (by rfl) (by rfl)

/-- C9: the warning lines of a successful run are exactly one line per
account for which no non-empty plaintext code could be obtained
("could not be decrypted": decryption failed, decrypted to the empty
string, or there was no truthy ciphertext to decrypt — the script's own
warning text treats all three as "could not decrypt"), in account order,
each naming its account; accounts whose code decrypts to a non-empty
string produce no warning line. -/
theorem claim9_warning_lines (decrypt : JValue → Option String)
    (db : JValue) (accs : List (List (String × JValue)))
    (out : JValue) (ws : List String)
    (ha : accountsOf db = some accs)
    (hm : migrateDb decrypt db = some (out, ws)) :
    ws = (accs.filter (fun a => !decryptsNonEmpty decrypt a)).map warnMsg ∧
    (∀ a n, a ∈ accs → decryptsNonEmpty decrypt a = false →
      getField a "name" = some (JValue.str n) →
      ("[WARN] Could not decrypt code for " ++ n ++
        ". Keeping null/empty.") ∈ ws) := by
  obtain ⟨fields, hf⟩ := asObjFields_of_accountsOf db accs ha
  rw [migrateDb_eq decrypt db fields accs hf ha] at hm
  have hpair := Option.some.inj hm
  rw [Prod.mk.injEq] at hpair
  obtain ⟨h1, h2⟩ := hpair
  subst h2
  refine ⟨warns_eq_filter decrypt accs, ?_⟩
  intro a n hmem hne hn
  rw [warns_eq_filter decrypt accs, ← warnMsg_name a n hn]
  exact List.mem_map_of_mem warnMsg
    (List.mem_filter.mpr ⟨hmem, by simp [hne]⟩)

/-- Witness for C9 on the spec's example database: exactly one warning,
for `acct2`, and it names `acct2`. -/
theorem claim9_witness :
    wsEx = (accsEx.filter
        (fun a => !decryptsNonEmpty decEx a)).map warnMsg ∧
    (∀ a n, a ∈ accsEx → decryptsNonEmpty decEx a = false →
      getField a "name" = some (JValue.str n) →
      ("[WARN] Could not decrypt code for " ++ n ++
        ". Keeping null/empty.") ∈ wsEx) :=
  claim9_warning_lines decEx dbEx accsEx outEx wsEx (by rfl) (by rfl)

/-- C10 counterexample: the claim says the output document consists of
exactly the two fields `accounts` and `settings`, but when the input has
no `settings` property, `db.settings` is `undefined` and `JSON.stringify`
drops it: the written document consists of the single field `accounts`. -/
theorem claim10_counterexample :
    writtenDoc decNone dbNoSettings =
      some (JValue.obj [("accounts", JValue.arr [])]) ∧
    getField [("accounts", JValue.arr [])] "settings" = none :=
  ⟨by rfl, by rfl⟩

/-- C10 amended: the output document has no top-level field other than
`accounts` and `settings`: `accounts` always comes first, and `settings`
is present (with the input's value) exactly when the input document has a
defined `settings` property; it is dropped when absent or `undefined`. -/
theorem claim10_fields_amended (decrypt : JValue → Option String)
    (db : JValue) (fields : List (String × JValue))
    (accs : List (List (String × JValue)))
    (hf : asObjFields db = some fields)
    (ha : accountsOf db = some accs) :
    ∃ accV, writtenDoc decrypt db = some (JValue.obj
      (("accounts", accV) ::
        (match getField fields "settings" with
         | some s => if isUndef s then [] else [("settings", s)]
         | none => []))) := by
  rw [writtenDoc, migrateDb_eq decrypt db fields accs hf ha]
  cases hs : getField fields "settings" with
  | none => exact ⟨_, rfl⟩
  | some s =>
      cases s with
      | undef => exact ⟨_, rfl⟩
      | null => exact ⟨_, rfl⟩
      | bool b => exact ⟨_, rfl⟩
      | num n => exact ⟨_, rfl⟩
      | str t => exact ⟨_, rfl⟩
      | arr xs => exact ⟨_, rfl⟩
      | obj fs => exact ⟨_, rfl⟩

/-- Witness for the amended C10 on the spec's example database: the
output document's top level is `accounts` followed by `settings`. -/
theorem claim10_witness :
    ∃ accV, writtenDoc decEx dbEx = some (JValue.obj
      (("accounts", accV) ::
        (match getField dbExFields "settings" with
         | some s => if isUndef s then [] else [("settings", s)]
         | none => []))) :=
  claim10_fields_amended decEx dbEx dbExFields accsEx (by rfl) (by rfl)
